import Mathlib

/-!
Verification development for the X.509 certificate-chain path-building and
policy-validation engine of this repository, together with the OpenSSL
provider-bootstrap helpers of src/src/rust/src/lib.rs.

The repository's source tree contains only the binding-layer file
src/src/rust/src/lib.rs; the verification engine itself (the module
crate::x509::verify re-exported there) is not among the source files, so the
engine is modelled from the specification (spec.md sections 3, 4, 6, 7): each
such definition carries a doc comment starting with "Modelled from the spec".
The two provider functions (_initialize_providers, _legacy_provider_error) are
translated directly from lib.rs.
-/

deriving instance DecidableEq for Except

namespace X509

/-- Modelled from the spec (section 3, Certificate): a decoded certificate as
the engine consumes it.  Names are byte strings (modelled as `String`), the
validity endpoints are second-precision timestamps (modelled as `Nat`), public
keys and algorithm identifiers are opaque identifiers (modelled as `Nat`), the
signed portion and the signature are byte sequences, and the extensions the
policy checks read are flattened into fields: basic constraints (`isCA`,
`pathLen`), the keyCertSign bit of key usage (`keyCertSign`, `none` when the
extension is absent), the extended-key-usage OID set (`eku`, `none` when
absent), subject alternative names (`san`), name constraints (`permitted`,
`excluded`) and certificate policies (`certPolicies`). -/
structure Cert where
  subject : String
  issuer : String
  serial : Nat
  notBefore : Nat
  notAfter : Nat
  pubKey : Nat
  sigAlg : Nat
  tbsBytes : List Nat
  sigBytes : List Nat
  isCA : Bool
  pathLen : Option Nat
  keyCertSign : Option Bool
  eku : Option (List Nat)
  san : List String
  permitted : Option (List String)
  excluded : List String
  certPolicies : Option (List Nat)
deriving DecidableEq, Repr

/-- Modelled from the spec (section 7): the enumerated VerificationError
taxonomy.  It is a closed enumeration so callers can branch on kind. -/
inductive VErr where
  | NoPathFound
  | SignatureInvalid
  | Expired
  | NotYetValid
  | BasicConstraintsViolation
  | PathLengthExceeded
  | KeyUsageViolation
  | ExtendedKeyUsageViolation
  | NameConstraintViolation
  | PolicyConstraintViolation
  | HostnameMismatch
  | UnsupportedAlgorithm
  | Revoked
  | CycleDetected
deriving DecidableEq, Repr

/-- Modelled from the spec (section 4.2): the usage profile, client or server;
the server profile carries the presented target name for hostname matching. -/
inductive Profile where
  | server (target : String)
  | client
deriving DecidableEq, Repr

/-- Modelled from the spec (sections 3 and 4.2, Policy): validation timestamp,
maximum chain depth, required extended-key-usage OID, subject profile, the
optional policy-constraint processing switch (off by default for
compatibility) and the caller-supplied extra predicate extension point
(run after the built-in predicate battery, on the assembled path). -/
structure Policy where
  validationTime : Nat
  maxDepth : Nat
  requiredEku : Nat
  profile : Profile
  enablePolicyProc : Bool
  extra : List Cert → Option VErr

/-- Modelled from the spec (section 1): the external low-level signature
verification capability `verify_signature(issuer_public_key, tbs_bytes,
signature_bytes, algorithm) -> bool`, together with the signature-algorithm
allow-list of check 2 (section 4.3). -/
structure SigEnv where
  allowed : List Nat
  verifySig : Nat → List Nat → List Nat → Nat → Bool

/-- Modelled from the spec (section 4.3, check 6): the "any extended key
usage" OID, as an abstract identifier. -/
def anyEkuOid : Nat := 0

/-- Splits a character list at a separator character; structural recursion so
that concrete evaluation reduces inside the kernel. -/
def splitChars (sep : Char) : List Char → List (List Char)
  | [] => [[]]
  | c :: cs =>
    if c = sep then [] :: splitChars sep cs
    else
      match splitChars sep cs with
      | [] => [[c]]
      | r :: rs => (c :: r) :: rs

/-- Modelled from the spec (section 4.2): the dot-separated labels of a DNS
name. -/
def dnsLabels (s : String) : List String :=
  (splitChars '.' s.data).map (fun l => String.mk l)

/-- Modelled from the spec (section 4.2): RFC 6125-style label matching.  A
single leftmost-label wildcard matches exactly one nonempty label; any other
pattern matches only by exact label-list equality, so there are no
partial-label and no multi-label wildcards. -/
def labelsMatch (ps ts : List String) : Bool :=
  match ps, ts with
  | p :: pr, t :: tr => if p == "*" then !(t == "") && pr == tr else ps == ts
  | _, _ => ps == ts

/-- Modelled from the spec (section 4.2): hostname matching of a SAN DNS
pattern against the presented target name, by labels. -/
def hostnameMatches (pat tgt : String) : Bool :=
  labelsMatch (dnsLabels pat) (dnsLabels tgt)

/-- Modelled from the spec (section 4.3, check 7): a name falls inside a
subtree pattern when it equals the pattern or is a dot-separated descendant
of it. -/
def inSubtree (pat n : String) : Bool :=
  n == pat || (("." ++ pat).data.isSuffixOf n.data)

/-- Modelled from the spec (section 4.3, check 7): a name is allowed when it
falls within the permitted subtrees of every constraining CA and outside every
excluded subtree. -/
def nameAllowed (perms : List (List String)) (excls : List String) (n : String) : Bool :=
  perms.all (fun ps => ps.any (fun q => inSubtree q n)) &&
    excls.all (fun q => !(inSubtree q n))

/-- Modelled from the spec (section 4.3, check 4): the accumulated path-length
constraint.  `path` is the path under construction in reverse order (current
subject first, the original leaf last); a candidate issuer carrying a
path-length limit L permits at most L non-self-issued CA certificates beneath
it, i.e. among the already-admitted certificates above the leaf. -/
def bcPathLenBad (iss : Cert) (path : List Cert) : Bool :=
  match iss.pathLen with
  | none => false
  | some L => decide (L < ((path.dropLast).filter (fun c => !(c.subject == c.issuer))).length)

/-- Modelled from the spec (section 4.3, check 5): an issuer acting as a
certificate signer must assert the keyCertSign bit when the key-usage
extension is present; absence is unrestricted only for trust-anchor
certificates, never for intermediates. -/
def kuBad (store : List Cert) (iss : Cert) : Bool :=
  match iss.keyCertSign with
  | some b => !b
  | none => !(decide (iss ∈ store))

/-- Modelled from the spec (section 4.3, check 6): an extended-key-usage set,
when present, must include the policy's required usage OID or the "any
extended key usage" OID. -/
def ekuOk (p : Policy) (c : Cert) : Bool :=
  match c.eku with
  | none => true
  | some s => s.contains p.requiredEku || s.contains anyEkuOid

/-- Modelled from the spec (section 4.3, check 6): the extended-key-usage
check for the pair (subject, candidate issuer); the subject's own set is
checked when the subject is the leaf (it is never on the issuer side of a
pair), the issuer's set always. -/
def ekuBad (p : Policy) (leaf sub iss : Cert) : Bool :=
  (decide (sub = leaf) && !(ekuOk p sub)) || !(ekuOk p iss)

/-- Modelled from the spec (section 4.3, check 7): name constraints.
Permitted and excluded subtrees are accumulated from every CA admitted so far
(`path.dropLast`, the reversed path under construction without the leaf)
together with the candidate issuer; the leaf's subject and SAN entries and
every admitted CA's subject must be allowed. -/
def ncBad (leaf : Cert) (path : List Cert) (iss : Cert) : Bool :=
  let contribs := path.dropLast ++ [iss]
  let perms := contribs.filterMap (fun c => c.permitted)
  let excls := (contribs.map (fun c => c.excluded)).flatten
  let names := leaf.subject :: (leaf.san ++ (path.dropLast).map (fun c => c.subject))
  !(names.all (fun n => nameAllowed perms excls n))

/-- Modelled from the spec (section 4.3, check 8): the certificate-policy OID
sets are intersected down the chain; a certificate without the extension
leaves the accumulated set unchanged. -/
def pcIntersect (cs : List Cert) : Option (List Nat) :=
  cs.foldl
    (fun acc c =>
      match acc, c.certPolicies with
      | none, x => x
      | some a, none => some a
      | some a, some b => some (a.filter (fun o => b.contains o)))
    none

/-- Modelled from the spec (section 4.3, check 8): when policy processing is
enabled, an empty intersection before reaching the anchor fails the
candidate. -/
def pcBad (p : Policy) (path : List Cert) (iss : Cert) : Bool :=
  p.enablePolicyProc &&
    (match pcIntersect (iss :: path) with
     | some [] => true
     | _ => false)

/-- Modelled from the spec (section 4.3, check 9): the leaf-only
profile-specific check; in the server profile the presented target must match
one SAN entry under the wildcard rule. -/
def hostBad (p : Policy) (leaf sub : Cert) : Bool :=
  match p.profile with
  | Profile.client => false
  | Profile.server tgt =>
    decide (sub = leaf) && !(leaf.san.any (fun s => hostnameMatches s tgt))

/-- Modelled from the spec (section 4.3): the Chain Validator.  For the
ordered pair (subject certificate `sub`, candidate issuer `iss`) and the
accumulated path state `path` (reversed: `sub` first, the original leaf
last), the checks run in the fixed order name linkage, signature verification
(allow-list first), validity window, basic constraints, key usage, extended
key usage, name constraints, policy constraints, leaf-only hostname matching,
short-circuiting at the first failure; `none` means every check passed. -/
def validateLink (env : SigEnv) (store : List Cert) (p : Policy)
    (leaf : Cert) (path : List Cert) (sub iss : Cert) : Option VErr :=
  if iss.subject = sub.issuer then
    if sub.sigAlg ∈ env.allowed then
      if env.verifySig iss.pubKey sub.tbsBytes sub.sigBytes sub.sigAlg then
        if p.validationTime < sub.notBefore then some VErr.NotYetValid
        else if sub.notAfter < p.validationTime then some VErr.Expired
        else if sub ≠ leaf ∧ iss.isCA = false then some VErr.BasicConstraintsViolation
        else if bcPathLenBad iss path then some VErr.PathLengthExceeded
        else if kuBad store iss then some VErr.KeyUsageViolation
        else if ekuBad p leaf sub iss then some VErr.ExtendedKeyUsageViolation
        else if ncBad leaf path iss then some VErr.NameConstraintViolation
        else if pcBad p path iss then some VErr.PolicyConstraintViolation
        else if hostBad p leaf sub then some VErr.HostnameMismatch
        else none
      else some VErr.SignatureInvalid
    else some VErr.UnsupportedAlgorithm
  else some VErr.NoPathFound

/-- Modelled from the spec (section 4.3, check 1): name linkage, with its
distinct failure tag. -/
def nameCheck (sub iss : Cert) : Option VErr :=
  if iss.subject = sub.issuer then none else some VErr.NoPathFound

/-- Modelled from the spec (section 4.3, check 2): algorithm allow-list and
signature verification, with their distinct failure tags. -/
def sigCheck (env : SigEnv) (sub iss : Cert) : Option VErr :=
  if sub.sigAlg ∈ env.allowed then
    if env.verifySig iss.pubKey sub.tbsBytes sub.sigBytes sub.sigAlg then none
    else some VErr.SignatureInvalid
  else some VErr.UnsupportedAlgorithm

/-- Modelled from the spec (section 4.3, check 3): the validation time must
fall within the subject certificate's not-before/not-after, both endpoints
inclusive. -/
def validityCheck (t : Nat) (sub : Cert) : Option VErr :=
  if t < sub.notBefore then some VErr.NotYetValid
  else if sub.notAfter < t then some VErr.Expired
  else none

/-- Modelled from the spec (section 4.3, check 4): basic constraints, with
their distinct failure tags. -/
def bcCheck (leaf : Cert) (path : List Cert) (sub iss : Cert) : Option VErr :=
  if sub ≠ leaf ∧ iss.isCA = false then some VErr.BasicConstraintsViolation
  else if bcPathLenBad iss path then some VErr.PathLengthExceeded
  else none

/-- Modelled from the spec (section 4.3, check 5): key usage, with its
distinct failure tag. -/
def kuCheck (store : List Cert) (iss : Cert) : Option VErr :=
  if kuBad store iss then some VErr.KeyUsageViolation else none

/-- Modelled from the spec (section 4.3, check 6): extended key usage, with
its distinct failure tag. -/
def ekuCheck (p : Policy) (leaf sub iss : Cert) : Option VErr :=
  if ekuBad p leaf sub iss then some VErr.ExtendedKeyUsageViolation else none

/-- Modelled from the spec (section 4.3, check 7): name constraints, with
their distinct failure tag. -/
def ncCheck (leaf : Cert) (path : List Cert) (iss : Cert) : Option VErr :=
  if ncBad leaf path iss then some VErr.NameConstraintViolation else none

/-- Modelled from the spec (section 4.3, check 8): policy constraints, with
their distinct failure tag. -/
def pcCheck (p : Policy) (path : List Cert) (iss : Cert) : Option VErr :=
  if pcBad p path iss then some VErr.PolicyConstraintViolation else none

/-- Modelled from the spec (section 4.3, check 9): the leaf-only hostname
check, with its distinct failure tag. -/
def hostCheck (p : Policy) (leaf sub : Cert) : Option VErr :=
  if hostBad p leaf sub then some VErr.HostnameMismatch else none

/-- Modelled from the spec (section 4.3): the battery of per-pair checks in
the order the spec fixes; this is the claim-side description against which
the Chain Validator `validateLink` is compared. -/
def specCheckSequence (env : SigEnv) (store : List Cert) (p : Policy)
    (leaf : Cert) (path : List Cert) (sub iss : Cert) : List (Option VErr) :=
  [nameCheck sub iss,
   sigCheck env sub iss,
   validityCheck p.validationTime sub,
   bcCheck leaf path sub iss,
   kuCheck store iss,
   ekuCheck p leaf sub iss,
   ncCheck leaf path iss,
   pcCheck p path iss,
   hostCheck p leaf sub]

/-- Runs a list of checks in order, short-circuiting at the first failure. -/
def firstSome : List (Option VErr) → Option VErr
  | [] => none
  | some e :: _ => some e
  | none :: rest => firstSome rest

/-- The failure tags each of the nine per-pair checks may produce, in check
order. -/
def checkTags : List (List VErr) :=
  [[VErr.NoPathFound],
   [VErr.UnsupportedAlgorithm, VErr.SignatureInvalid],
   [VErr.NotYetValid, VErr.Expired],
   [VErr.BasicConstraintsViolation, VErr.PathLengthExceeded],
   [VErr.KeyUsageViolation],
   [VErr.ExtendedKeyUsageViolation],
   [VErr.NameConstraintViolation],
   [VErr.PolicyConstraintViolation],
   [VErr.HostnameMismatch]]

/-- A ranked error of the Path Builder: the depth the failure was reached at,
the index of the failed check (0 for the depth and cycle guards and for "no
candidate at all"), and the reason. -/
abbrev RErr : Type := Nat × Nat × VErr

/-- The check index a Chain Validator failure tag belongs to, used to rank
failure reasons by specificity; the guards and the generic no-path reason
rank lowest. -/
def errIdx : VErr → Nat
  | VErr.NoPathFound => 1
  | VErr.UnsupportedAlgorithm => 2
  | VErr.SignatureInvalid => 2
  | VErr.NotYetValid => 3
  | VErr.Expired => 3
  | VErr.BasicConstraintsViolation => 4
  | VErr.PathLengthExceeded => 4
  | VErr.KeyUsageViolation => 5
  | VErr.ExtendedKeyUsageViolation => 6
  | VErr.NameConstraintViolation => 7
  | VErr.PolicyConstraintViolation => 8
  | VErr.HostnameMismatch => 9
  | VErr.Revoked => 0
  | VErr.CycleDetected => 0

/-- Modelled from the spec (section 4.4, Reject): of two failure reasons the
search keeps the deeper one, and at equal depth the more specific (later)
check's; on a full tie the first seen is kept. -/
def maxErr (a b : Nat × Nat × VErr) : Nat × Nat × VErr :=
  if a.1 < b.1 ∨ (a.1 = b.1 ∧ a.2.1 < b.2.1) then b else a

/-- Modelled from the spec (section 4.4, Accept): the policy predicates for
the assembled path, re-run at acceptance.  They are the leaf-only built-in
checks (validity window, extended key usage, hostname) followed by the
caller-supplied extra predicates on the leaf-to-anchor chain; each failure
keeps its check index. -/
def acceptChecks (p : Policy) (leaf : Cert) (path : List Cert) : Option (Nat × VErr) :=
  match validityCheck p.validationTime leaf with
  | some e => some (3, e)
  | none =>
    if !(ekuOk p leaf) then some (6, VErr.ExtendedKeyUsageViolation)
    else
      match hostCheck p leaf leaf with
      | some e => some (9, e)
      | none =>
        match p.extra path.reverse with
        | some e => some (10, e)
        | none => none

/-- Modelled from the spec (section 4.4, Step): the outcome of trying one
candidate issuer `c` at the current step.  A candidate already present in the
path under construction is never revisited (cycle guard); otherwise the Chain
Validator runs and, on success, the search recurses through `next` with the
candidate pushed onto the path. -/
def branchRes (env : SigEnv) (store : List Cert) (p : Policy) (leaf : Cert)
    (next : List Cert → Cert → Except RErr (List Cert))
    (path : List Cert) (current : Cert) (c : Cert) : Except RErr (List Cert) :=
  if c ∈ path then Except.error (path.length - 1, 0, VErr.CycleDetected)
  else
    match validateLink env store p leaf path current c with
    | some e => Except.error (path.length - 1, errIdx e, e)
    | none => next (c :: path) c

/-- Modelled from the spec (section 4.4, Step and Backtrack): candidates are
tried in their stable order; a failing branch never aborts the search, it
only folds its reason into the best failure seen, and the first succeeding
branch's chain is returned. -/
def tryCands (env : SigEnv) (store : List Cert) (p : Policy) (leaf : Cert)
    (next : List Cert → Cert → Except RErr (List Cert))
    (path : List Cert) (current : Cert) :
    List Cert → (Nat × Nat × VErr) → Except RErr (List Cert)
  | [], best => Except.error best
  | c :: cs, best =>
    match branchRes env store p leaf next path current c with
    | Except.ok chain => Except.ok chain
    | Except.error e => tryCands env store p leaf next path current cs (maxErr best e)

/-- Modelled from the spec (section 4.4): the depth-first Path Builder.  The
path under construction is kept in reverse order (`current` first, the
original leaf last); the depth guard fails a branch whose depth exceeds the
policy's maximum, a current certificate found in the trust store transitions
to Accept after the assembled-path predicates, and otherwise the candidate
issuers — the supplied pool first, then the store, filtered by subject-name
linkage — are tried in order.  The fuel argument is the remaining depth
budget (`maxDepth + 1` at the start), so recursion is structural; its
exhaustion coincides with the depth guard. -/
def searchAux (env : SigEnv) (store : List Cert) (p : Policy) (leaf : Cert)
    (pool : List Cert) : Nat → List Cert → Cert → Except RErr (List Cert)
  | 0, path, current =>
    if p.maxDepth < path.length - 1 then
      Except.error (path.length - 1, 0, VErr.PathLengthExceeded)
    else if current ∈ store then
      match acceptChecks p leaf path with
      | none => Except.ok path.reverse
      | some ie => Except.error (path.length - 1, ie.1, ie.2)
    else Except.error (path.length - 1, 0, VErr.PathLengthExceeded)
  | fuel + 1, path, current =>
    if p.maxDepth < path.length - 1 then
      Except.error (path.length - 1, 0, VErr.PathLengthExceeded)
    else if current ∈ store then
      match acceptChecks p leaf path with
      | none => Except.ok path.reverse
      | some ie => Except.error (path.length - 1, ie.1, ie.2)
    else
      tryCands env store p leaf
        (fun pa cu => searchAux env store p leaf pool fuel pa cu) path current
        ((pool ++ store).filter (fun c => c.subject == current.issuer))
        (path.length - 1, 0, VErr.NoPathFound)

/-- Modelled from the spec (sections 4.4 and 6): the verification entry
point.  Starts the search at the leaf with depth 0 and strips the internal
failure ranking, returning the leaf-to-anchor VerifiedChain or the
best-effort VerificationError. -/
def verify (env : SigEnv) (store : List Cert) (p : Policy)
    (pool : List Cert) (leaf : Cert) : Except VErr (List Cert) :=
  match searchAux env store p leaf pool (p.maxDepth + 1) [leaf] leaf with
  | Except.ok c => Except.ok c
  | Except.error e => Except.error e.2.2

/-- Modelled from the spec (section 3, VerifiedChain invariant): one issuer
link of a chain written leaf first — the issuer's subject name equals the
subject certificate's issuer name, the signature algorithm is allowed and the
issuer's public key validates the subject's signature over its signed
portion. -/
def linkOk (env : SigEnv) (sub iss : Cert) : Prop :=
  iss.subject = sub.issuer ∧ sub.sigAlg ∈ env.allowed ∧
    env.verifySig iss.pubKey sub.tbsBytes sub.sigBytes sub.sigAlg = true

/-- A concrete instantiation of the external signature capability for the
test scenarios of spec section 8: algorithm 1 is the one allowed algorithm,
and a signature is valid exactly when it is the issuer's key identifier
prepended to the signed bytes. -/
def demoEnv : SigEnv :=
  { allowed := [1], verifySig := fun k tbs sg _ => sg == k :: tbs }

/-- The trust anchor of the concrete scenario of spec section 8. -/
def demoRoot : Cert :=
  { subject := "Root R", issuer := "Root R", serial := 1, notBefore := 0,
    notAfter := 4000, pubKey := 30, sigAlg := 1, tbsBytes := [7],
    sigBytes := [30, 7], isCA := true, pathLen := none,
    keyCertSign := some true, eku := none, san := [], permitted := none,
    excluded := [], certPolicies := none }

/-- The intermediate of the concrete scenario of spec section 8: issued by
the root, CA, path-length limit 0. -/
def demoInt : Cert :=
  { subject := "Int I", issuer := "Root R", serial := 2, notBefore := 0,
    notAfter := 4000, pubKey := 31, sigAlg := 1, tbsBytes := [6],
    sigBytes := [30, 6], isCA := true, pathLen := some 0,
    keyCertSign := some true, eku := none, san := [], permitted := none,
    excluded := [], certPolicies := none }

/-- The leaf of the concrete scenario of spec section 8: issued by the
intermediate, EKU server-auth (OID 1 here), SAN *.example.com. -/
def demoLeaf : Cert :=
  { subject := "leaf", issuer := "Int I", serial := 3, notBefore := 10,
    notAfter := 4000, pubKey := 32, sigAlg := 1, tbsBytes := [5],
    sigBytes := [31, 5], isCA := false, pathLen := none, keyCertSign := none,
    eku := some [1], san := ["*.example.com"], permitted := none,
    excluded := [], certPolicies := none }

/-- The trust store of the concrete scenario of spec section 8. -/
def demoStore : List Cert := [demoRoot]

/-- The intermediate pool of the concrete scenario of spec section 8. -/
def demoPool : List Cert := [demoInt]

/-- The server-profile policy of the concrete scenario of spec section 8,
parameterised by the presented target name. -/
def serverPolicy (tgt : String) : Policy :=
  { validationTime := 100, maxDepth := 3, requiredEku := 1,
    profile := Profile.server tgt, enablePolicyProc := false,
    extra := fun _ => none }

/-- The same policy with a validation time past every certificate's
not-after, for the expiry scenario. -/
def expiredPolicy : Policy :=
  { serverPolicy "api.example.com" with validationTime := 5000 }

/-- A client-profile policy with maximum depth 2, for the ambiguous-pool
scenario of spec section 8 (a too-long and a valid shorter path). -/
def clientPolicy : Policy :=
  { validationTime := 100, maxDepth := 2, requiredEku := 2,
    profile := Profile.client, enablePolicyProc := false,
    extra := fun _ => none }

/-- First hop of the too-long branch of the ambiguous pool: subject X,
cross-certified (same key as `certB`). -/
def certA1 : Cert :=
  { subject := "X", issuer := "A2", serial := 10, notBefore := 0,
    notAfter := 4000, pubKey := 40, sigAlg := 1, tbsBytes := [9],
    sigBytes := [41, 9], isCA := true, pathLen := none,
    keyCertSign := some true, eku := none, san := [], permitted := none,
    excluded := [], certPolicies := none }

/-- Second hop of the too-long branch. -/
def certA2 : Cert :=
  { subject := "A2", issuer := "A3", serial := 11, notBefore := 0,
    notAfter := 4000, pubKey := 41, sigAlg := 1, tbsBytes := [10],
    sigBytes := [42, 10], isCA := true, pathLen := none,
    keyCertSign := some true, eku := none, san := [], permitted := none,
    excluded := [], certPolicies := none }

/-- Third hop of the too-long branch; the depth guard fires at its step. -/
def certA3 : Cert :=
  { subject := "A3", issuer := "Root A", serial := 12, notBefore := 0,
    notAfter := 4000, pubKey := 42, sigAlg := 1, tbsBytes := [11],
    sigBytes := [43, 11], isCA := true, pathLen := none,
    keyCertSign := some true, eku := none, san := [], permitted := none,
    excluded := [], certPolicies := none }

/-- The anchor of the too-long branch. -/
def rootA : Cert :=
  { subject := "Root A", issuer := "Root A", serial := 13, notBefore := 0,
    notAfter := 4000, pubKey := 43, sigAlg := 1, tbsBytes := [12],
    sigBytes := [43, 12], isCA := true, pathLen := none,
    keyCertSign := some true, eku := none, san := [], permitted := none,
    excluded := [], certPolicies := none }

/-- The one hop of the valid shorter path: subject X, same key as `certA1`
(cross-certification makes the pool ambiguous), issued by Root B. -/
def certB : Cert :=
  { subject := "X", issuer := "Root B", serial := 14, notBefore := 0,
    notAfter := 4000, pubKey := 40, sigAlg := 1, tbsBytes := [13],
    sigBytes := [45, 13], isCA := true, pathLen := none,
    keyCertSign := some true, eku := none, san := [], permitted := none,
    excluded := [], certPolicies := none }

/-- The anchor of the valid shorter path. -/
def rootB : Cert :=
  { subject := "Root B", issuer := "Root B", serial := 15, notBefore := 0,
    notAfter := 4000, pubKey := 45, sigAlg := 1, tbsBytes := [14],
    sigBytes := [45, 14], isCA := true, pathLen := none,
    keyCertSign := some true, eku := none, san := [], permitted := none,
    excluded := [], certPolicies := none }

/-- The leaf of the ambiguous-pool scenario, issued under subject name X. -/
def leafX : Cert :=
  { subject := "leaf6", issuer := "X", serial := 16, notBefore := 0,
    notAfter := 4000, pubKey := 46, sigAlg := 1, tbsBytes := [8],
    sigBytes := [40, 8], isCA := false, pathLen := none, keyCertSign := none,
    eku := none, san := [], permitted := none, excluded := [],
    certPolicies := none }

/-- The store of the ambiguous-pool scenario: both anchors. -/
def storeAB : List Cert := [rootA, rootB]

/-- The ambiguous pool: the too-long branch first (it is explored first),
then the hop of the valid shorter path. -/
def poolAB : List Cert := [certA1, certA2, certA3, certB]

end X509

namespace RustLib

/-- A Python exception as pyo3 raises it: its kind and its message. -/
structure PyErr where
  kind : String
  message : String
deriving DecidableEq, Repr

/-- The message of the PyRuntimeError raised by `_legacy_provider_error` in
src/src/rust/src/lib.rs. -/
def legacyProviderMessage : String :=
  "OpenSSL 3.0's legacy provider failed to load. This is a fatal error by default, but cryptography supports running without legacy algorithms by setting the environment variable CRYPTOGRAPHY_OPENSSL_NO_LEGACY. If you did not expect this error, you have likely made a mistake with your OpenSSL configuration."

/-- Translation of `_legacy_provider_error` (src/src/rust/src/lib.rs lines
76-83): Ok on success, a PyRuntimeError carrying `legacyProviderMessage`
otherwise. -/
def legacyProviderError (success : Bool) : Except PyErr Unit :=
  if !success then
    Except.error { kind := "RuntimeError", message := legacyProviderMessage }
  else Except.ok ()

/-- The provider set `_initialize_providers` returns (struct LoadedProviders
of src/src/rust/src/lib.rs); provider handles are modelled as their names.
The source's field `_default` is named `defaultProvider` here. -/
structure LoadedProviders where
  legacy : Option String
  defaultProvider : String
  fips : Option String
deriving DecidableEq, Repr

/-- The `load_legacy` condition of `_initialize_providers` (lines 58-60):
`env::var("CRYPTOGRAPHY_OPENSSL_NO_LEGACY").map(|v| v.is_empty() || v == "0").unwrap_or(true)`.
`envVar` is the variable's value, `none` when unset (or not readable as a
string, which `env::var` also reports as an Err). -/
def loadLegacyFlag (envVar : Option String) : Bool :=
  match envVar with
  | none => true
  | some v => v == "" || v == "0"

/-- Translation of `_initialize_providers` (src/src/rust/src/lib.rs lines
52-74).  The outcomes of the two OpenSSL provider loads are inputs:
`legacyLoad` and `defaultLoad` give the provider handle or the OpenSSL error
string.  When the legacy provider is to be loaded and its load fails, the
`?` on `_legacy_provider_error(legacy_result.is_ok())` returns that
PyRuntimeError before `legacy_result?` is reached. -/
def initializeProviders (envVar : Option String)
    (legacyLoad : Except String String) (defaultLoad : Except String String) :
    Except PyErr LoadedProviders :=
  let load_legacy := loadLegacyFlag envVar
  if load_legacy then
    match legacyProviderError (match legacyLoad with
                               | Except.ok _ => true
                               | Except.error _ => false) with
    | Except.error e => Except.error e
    | Except.ok _ =>
      match legacyLoad with
      | Except.error e => Except.error { kind := "OpenSSLError", message := e }
      | Except.ok lp =>
        match defaultLoad with
        | Except.error e => Except.error { kind := "OpenSSLError", message := e }
        | Except.ok dp =>
          Except.ok { legacy := some lp, defaultProvider := dp, fips := none }
  else
    match defaultLoad with
    | Except.error e => Except.error { kind := "OpenSSLError", message := e }
    | Except.ok dp =>
      Except.ok { legacy := none, defaultProvider := dp, fips := none }

end RustLib

namespace X509

theorem validateLink_none {env : SigEnv} {store : List Cert} {p : Policy}
    {leaf : Cert} {path : List Cert} {sub iss : Cert}
    (h : validateLink env store p leaf path sub iss = none) :
    linkOk env sub iss ∧ ¬ p.validationTime < sub.notBefore ∧
      ¬ sub.notAfter < p.validationTime := by
  unfold validateLink at h
  by_cases h1 : iss.subject = sub.issuer
  case neg => rw [if_neg h1] at h; cases h
  rw [if_pos h1] at h
  by_cases h2 : sub.sigAlg ∈ env.allowed
  case neg => rw [if_neg h2] at h; cases h
  rw [if_pos h2] at h
  by_cases h3 : env.verifySig iss.pubKey sub.tbsBytes sub.sigBytes sub.sigAlg = true
  case neg => rw [if_neg h3] at h; cases h
  rw [if_pos h3] at h
  by_cases h4 : p.validationTime < sub.notBefore
  case pos => rw [if_pos h4] at h; cases h
  rw [if_neg h4] at h
  by_cases h5 : sub.notAfter < p.validationTime
  case pos => rw [if_pos h5] at h; cases h
  exact ⟨⟨h1, h2, h3⟩, h4, h5⟩

theorem branchRes_ok {env : SigEnv} {store : List Cert} {p : Policy}
    {leaf : Cert} {next : List Cert → Cert → Except RErr (List Cert)}
    {path : List Cert} {current c : Cert} {chain : List Cert}
    (h : branchRes env store p leaf next path current c = Except.ok chain) :
    c ∉ path ∧ validateLink env store p leaf path current c = none ∧
      next (c :: path) c = Except.ok chain := by
  unfold branchRes at h
  by_cases h1 : c ∈ path
  · rw [if_pos h1] at h; cases h
  · rw [if_neg h1] at h
    cases hv : validateLink env store p leaf path current c with
    | some e => rw [hv] at h; exact Except.noConfusion h
    | none => rw [hv] at h; exact ⟨h1, rfl, h⟩

theorem tryCands_cons_ok {env : SigEnv} {store : List Cert} {p : Policy}
    {leaf : Cert} {next : List Cert → Cert → Except RErr (List Cert)}
    {path : List Cert} {current c : Cert} (cs : List Cert) (best : RErr)
    {chain : List Cert}
    (hb : branchRes env store p leaf next path current c = Except.ok chain) :
    tryCands env store p leaf next path current (c :: cs) best = Except.ok chain := by
  unfold tryCands
  rw [hb]

theorem tryCands_cons_err {env : SigEnv} {store : List Cert} {p : Policy}
    {leaf : Cert} {next : List Cert → Cert → Except RErr (List Cert)}
    {path : List Cert} {current c : Cert} {cs : List Cert} {best : RErr}
    {e : RErr}
    (hb : branchRes env store p leaf next path current c = Except.error e) :
    tryCands env store p leaf next path current (c :: cs) best =
      tryCands env store p leaf next path current cs (maxErr best e) := by
  conv_lhs => rw [tryCands]
  rw [hb]

theorem tryCands_ok {env : SigEnv} {store : List Cert} {p : Policy}
    {leaf : Cert} {next : List Cert → Cert → Except RErr (List Cert)}
    {path : List Cert} {current : Cert} :
    ∀ (cs : List Cert) (best : RErr) (chain : List Cert),
      tryCands env store p leaf next path current cs best = Except.ok chain →
      ∃ c ∈ cs, branchRes env store p leaf next path current c = Except.ok chain := by
  intro cs
  induction cs with
  | nil => intro best chain h; cases h
  | cons c cs ih =>
    intro best chain h
    cases hb : branchRes env store p leaf next path current c with
    | ok chain2 =>
      have h2 := (tryCands_cons_ok cs best hb).symm.trans h
      cases h2
      exact ⟨c, by simp, hb⟩
    | error e =>
      rw [tryCands_cons_err hb] at h
      obtain ⟨d, hd, hbd⟩ := ih _ _ h
      exact ⟨d, by simp [hd], hbd⟩

theorem searchAux_ok_inv (env : SigEnv) (store : List Cert) (p : Policy)
    (leaf : Cert) (pool : List Cert) :
    ∀ (fuel : Nat) (path : List Cert) (current : Cert) (chain : List Cert),
      path.head? = some current →
      path.getLast? = some leaf →
      List.Chain' (flip (linkOk env)) path →
      path.Nodup →
      searchAux env store p leaf pool fuel path current = Except.ok chain →
      chain.head? = some leaf ∧
        (∃ a, chain.getLast? = some a ∧ a ∈ store) ∧
        List.Chain' (linkOk env) chain ∧
        chain.length ≤ p.maxDepth + 1 ∧
        chain.Nodup := by
  intro fuel
  induction fuel with
  | zero =>
    intro path current chain hhead hlast hchain hnodup h
    unfold searchAux at h
    by_cases hguard : p.maxDepth < path.length - 1
    · rw [if_pos hguard] at h; cases h
    · rw [if_neg hguard] at h
      by_cases hstore : current ∈ store
      · rw [if_pos hstore] at h
        cases hacc : acceptChecks p leaf path with
        | none =>
          rw [hacc] at h
          have h2 : Except.ok (ε := RErr) path.reverse = Except.ok chain := h
          cases h2
          refine ⟨?_, ⟨current, ?_, hstore⟩, ?_, ?_, ?_⟩
          · rw [List.head?_reverse]; exact hlast
          · rw [List.getLast?_reverse]; exact hhead
          · exact List.chain'_reverse.mpr hchain
          · simp only [List.length_reverse]; omega
          · exact List.nodup_reverse.mpr hnodup
        | some ie => rw [hacc] at h; exact Except.noConfusion h
      · rw [if_neg hstore] at h; cases h
  | succ fuel ih =>
    intro path current chain hhead hlast hchain hnodup h
    cases path with
    | nil => cases hhead
    | cons a rest =>
    have ha : a = current := by simpa using hhead
    subst ha
    unfold searchAux at h
    by_cases hguard : p.maxDepth < (a :: rest).length - 1
    · rw [if_pos hguard] at h; cases h
    · rw [if_neg hguard] at h
      by_cases hstore : a ∈ store
      · rw [if_pos hstore] at h
        cases hacc : acceptChecks p leaf (a :: rest) with
        | none =>
          rw [hacc] at h
          have h2 : Except.ok (ε := RErr) (a :: rest).reverse = Except.ok chain := h
          cases h2
          refine ⟨?_, ⟨a, ?_, hstore⟩, ?_, ?_, ?_⟩
          · rw [List.head?_reverse]; exact hlast
          · rw [List.getLast?_reverse]; exact hhead
          · exact List.chain'_reverse.mpr hchain
          · simp only [List.length_reverse]; omega
          · exact List.nodup_reverse.mpr hnodup
        | some ie => rw [hacc] at h; exact Except.noConfusion h
      · rw [if_neg hstore] at h
        obtain ⟨c, hcmem, hbr⟩ := tryCands_ok _ _ _ h
        obtain ⟨hnotin, hvl, hnext⟩ := branchRes_ok hbr
        have hlink : linkOk env a c := (validateLink_none hvl).1
        exact ih (c :: a :: rest) c chain rfl
          (by rw [List.getLast?_cons_cons]; exact hlast)
          (List.chain'_cons.mpr ⟨hlink, hchain⟩)
          (List.nodup_cons.mpr ⟨hnotin, hnodup⟩)
          hnext

theorem verify_ok_elim {env : SigEnv} {store : List Cert} {p : Policy}
    {pool : List Cert} {leaf : Cert} {chain : List Cert}
    (h : verify env store p pool leaf = Except.ok chain) :
    searchAux env store p leaf pool (p.maxDepth + 1) [leaf] leaf = Except.ok chain := by
  unfold verify at h
  cases hs : searchAux env store p leaf pool (p.maxDepth + 1) [leaf] leaf with
  | ok c =>
    rw [hs] at h
    have h2 : Except.ok (ε := VErr) c = Except.ok chain := h
    cases h2
    rfl
  | error e =>
    rw [hs] at h
    exact Except.noConfusion h

/-- C1: every VerifiedChain a successful verification call returns starts at
the original leaf, ends at a member of the trust store, links every adjacent
(subject, issuer) pair by name matching and signature verification, and its
path length (the number of issuer links, one less than the number of
certificates) never exceeds the policy's maximum depth: the chain holds at
most `maxDepth + 1` certificates. -/
theorem c1_verified_chain_invariant (env : SigEnv) (store : List Cert)
    (p : Policy) (pool : List Cert) (leaf : Cert) (chain : List Cert)
    (h : verify env store p pool leaf = Except.ok chain) :
    chain.head? = some leaf ∧
      (∃ a, chain.getLast? = some a ∧ a ∈ store) ∧
      List.Chain' (linkOk env) chain ∧
      chain.length ≤ p.maxDepth + 1 := by
  have r := searchAux_ok_inv env store p leaf pool (p.maxDepth + 1) [leaf] leaf chain
    rfl rfl (by simp) (by simp) (verify_ok_elim h)
  exact ⟨r.1, r.2.1, r.2.2.1, r.2.2.2.1⟩

/-- Witness for C1: the concrete three-certificate scenario of spec section 8
verifies, and the returned chain satisfies every clause of the invariant. -/
theorem c1_witness :
    verify demoEnv demoStore (serverPolicy "api.example.com") demoPool demoLeaf =
      Except.ok [demoLeaf, demoInt, demoRoot] ∧
    ([demoLeaf, demoInt, demoRoot] : List Cert).head? = some demoLeaf ∧
      (∃ a, ([demoLeaf, demoInt, demoRoot] : List Cert).getLast? = some a ∧ a ∈ demoStore) ∧
      List.Chain' (linkOk demoEnv) [demoLeaf, demoInt, demoRoot] ∧
      ([demoLeaf, demoInt, demoRoot] : List Cert).length ≤
        (serverPolicy "api.example.com").maxDepth + 1 :=
  ⟨by decide,
   c1_verified_chain_invariant demoEnv demoStore (serverPolicy "api.example.com")
     demoPool demoLeaf [demoLeaf, demoInt, demoRoot] (by decide)⟩

/-- C8: the cycle guard keeps every certificate of the path under
construction distinct, so a chain returned by a successful verification call
never contains a duplicate certificate; together with the depth guard this
bounds the search on self-referential intermediate sets. -/
theorem c8_no_duplicate_in_chain (env : SigEnv) (store : List Cert)
    (p : Policy) (pool : List Cert) (leaf : Cert) (chain : List Cert)
    (h : verify env store p pool leaf = Except.ok chain) :
    chain.Nodup :=
  (searchAux_ok_inv env store p leaf pool (p.maxDepth + 1) [leaf] leaf chain
    rfl rfl (by simp) (by simp) (verify_ok_elim h)).2.2.2.2

/-- Witness for C8: the ambiguous-pool scenario returns a chain, and that
chain has no duplicate certificate. -/
theorem c8_witness :
    verify demoEnv storeAB clientPolicy poolAB leafX =
      Except.ok [leafX, certB, rootB] ∧
    ([leafX, certB, rootB] : List Cert).Nodup :=
  ⟨by decide,
   c8_no_duplicate_in_chain demoEnv storeAB clientPolicy poolAB leafX
     [leafX, certB, rootB] (by decide)⟩

/-- C2: verification is deterministic — the engine is a pure function of the
signature capability, trust store, policy (validation time included),
intermediate pool (order included) and leaf, so two runs on identical inputs
return the identical VerifiedChain or the identical VerificationError. -/
theorem c2_deterministic (env env2 : SigEnv) (store store2 : List Cert)
    (p p2 : Policy) (pool pool2 : List Cert) (leaf leaf2 : Cert)
    (h1 : env = env2) (h2 : store = store2) (h3 : p = p2) (h4 : pool = pool2)
    (h5 : leaf = leaf2) :
    verify env store p pool leaf = verify env2 store2 p2 pool2 leaf2 := by
  subst h1; subst h2; subst h3; subst h4; subst h5; rfl

/-- Witness for C2: two runs of the ambiguous-pool scenario agree. -/
theorem c2_witness :
    demoEnv = demoEnv ∧ storeAB = storeAB ∧ clientPolicy = clientPolicy ∧
      poolAB = poolAB ∧ leafX = leafX ∧
      verify demoEnv storeAB clientPolicy poolAB leafX =
        verify demoEnv storeAB clientPolicy poolAB leafX :=
  ⟨rfl, rfl, rfl, rfl, rfl,
   c2_deterministic demoEnv demoEnv storeAB storeAB clientPolicy clientPolicy
     poolAB poolAB leafX leafX rfl rfl rfl rfl rfl⟩

/-- C3: every verification call returns exactly one of a VerifiedChain or an
enumerated VerificationError — never both, never a partial result; a
rejection carries a reason from the closed `VErr` taxonomy. -/
theorem c3_binary_outcome (env : SigEnv) (store : List Cert) (p : Policy)
    (pool : List Cert) (leaf : Cert) :
    (∃ c, verify env store p pool leaf = Except.ok c ∧
        ∀ e, ¬ verify env store p pool leaf = Except.error e) ∨
    (∃ e, verify env store p pool leaf = Except.error e ∧
        ∀ c, ¬ verify env store p pool leaf = Except.ok c) := by
  cases h : verify env store p pool leaf with
  | ok c => exact Or.inl ⟨c, rfl, fun e he => Except.noConfusion he⟩
  | error e => exact Or.inr ⟨e, rfl, fun c hc => Except.noConfusion hc⟩

theorem ite_some_none_eq {c : Prop} [Decidable c] {t e : VErr}
    (h : (if c then some t else none) = some e) : e = t := by
  by_cases hc : c
  · rw [if_pos hc] at h; cases h; rfl
  · rw [if_neg hc] at h; cases h

theorem ite_none_some_eq {c : Prop} [Decidable c] {t e : VErr}
    (h : (if c then none else some t) = some e) : e = t := by
  by_cases hc : c
  · rw [if_pos hc] at h; cases h
  · rw [if_neg hc] at h; cases h; rfl

/-- C7: the Chain Validator runs its per-pair checks in the fixed order name
linkage, signature verification, validity window, basic constraints, key
usage, extended key usage, name constraints, policy constraints, leaf-only
hostname matching, short-circuiting at the first failure (`validateLink`
equals the first failure of `specCheckSequence`); the failure tags of the
nine checks are pairwise disjoint, and each check only fails with its own
tags, so every failure identifies the failed check. -/
theorem c7_check_order :
    (∀ (env : SigEnv) (store : List Cert) (p : Policy) (leaf : Cert)
        (path : List Cert) (sub iss : Cert),
        validateLink env store p leaf path sub iss =
          firstSome (specCheckSequence env store p leaf path sub iss)) ∧
    List.Pairwise (fun s t => ∀ e, e ∈ s → ¬ e ∈ t) checkTags ∧
    (∀ (env : SigEnv) (store : List Cert) (p : Policy) (leaf : Cert)
        (path : List Cert) (sub iss : Cert),
        List.Forall₂ (fun o tags => ∀ e, o = some e → e ∈ tags)
          (specCheckSequence env store p leaf path sub iss) checkTags) := by
  refine ⟨?_, by decide, ?_⟩
  · intro env store p leaf path sub iss
    simp only [validateLink, specCheckSequence, nameCheck, sigCheck, validityCheck,
      bcCheck, kuCheck, ekuCheck, ncCheck, pcCheck, hostCheck]
    by_cases h1 : iss.subject = sub.issuer
    case neg => rw [if_neg h1, if_neg h1]; rfl
    rw [if_pos h1, if_pos h1]
    by_cases h2 : sub.sigAlg ∈ env.allowed
    case neg => rw [if_neg h2, if_neg h2]; rfl
    rw [if_pos h2, if_pos h2]
    by_cases h3 : env.verifySig iss.pubKey sub.tbsBytes sub.sigBytes sub.sigAlg = true
    case neg => rw [if_neg h3, if_neg h3]; rfl
    rw [if_pos h3, if_pos h3]
    by_cases h4 : p.validationTime < sub.notBefore
    case pos => rw [if_pos h4, if_pos h4]; rfl
    rw [if_neg h4, if_neg h4]
    by_cases h5 : sub.notAfter < p.validationTime
    case pos => rw [if_pos h5, if_pos h5]; rfl
    rw [if_neg h5, if_neg h5]
    by_cases h6 : sub ≠ leaf ∧ iss.isCA = false
    case pos => rw [if_pos h6, if_pos h6]; rfl
    rw [if_neg h6, if_neg h6]
    by_cases h7 : bcPathLenBad iss path = true
    case pos => rw [if_pos h7, if_pos h7]; rfl
    rw [if_neg h7, if_neg h7]
    by_cases h8 : kuBad store iss = true
    case pos => rw [if_pos h8, if_pos h8]; rfl
    rw [if_neg h8, if_neg h8]
    by_cases h9 : ekuBad p leaf sub iss = true
    case pos => rw [if_pos h9, if_pos h9]; rfl
    rw [if_neg h9, if_neg h9]
    by_cases h10 : ncBad leaf path iss = true
    case pos => rw [if_pos h10, if_pos h10]; rfl
    rw [if_neg h10, if_neg h10]
    by_cases h11 : pcBad p path iss = true
    case pos => rw [if_pos h11, if_pos h11]; rfl
    rw [if_neg h11, if_neg h11]
    by_cases h12 : hostBad p leaf sub = true
    case pos => rw [if_pos h12]; rfl
    rw [if_neg h12]
    rfl
  · intro env store p leaf path sub iss
    refine List.Forall₂.cons ?_ (List.Forall₂.cons ?_ (List.Forall₂.cons ?_
      (List.Forall₂.cons ?_ (List.Forall₂.cons ?_ (List.Forall₂.cons ?_
      (List.Forall₂.cons ?_ (List.Forall₂.cons ?_ (List.Forall₂.cons ?_
      List.Forall₂.nil))))))))
    · intro e he
      rw [ite_none_some_eq he]
      simp
    · intro e he
      unfold sigCheck at he
      by_cases hc : sub.sigAlg ∈ env.allowed
      · rw [if_pos hc] at he
        rw [ite_none_some_eq he]
        simp
      · rw [if_neg hc] at he; cases he; simp
    · intro e he
      unfold validityCheck at he
      by_cases hc : p.validationTime < sub.notBefore
      · rw [if_pos hc] at he; cases he; simp
      · rw [if_neg hc] at he
        rw [ite_some_none_eq he]
        simp
    · intro e he
      unfold bcCheck at he
      by_cases hc : sub ≠ leaf ∧ iss.isCA = false
      · rw [if_pos hc] at he; cases he; simp
      · rw [if_neg hc] at he
        rw [ite_some_none_eq he]
        simp
    · intro e he
      rw [ite_some_none_eq he]
      simp
    · intro e he
      rw [ite_some_none_eq he]
      simp
    · intro e he
      rw [ite_some_none_eq he]
      simp
    · intro e he
      rw [ite_some_none_eq he]
      simp
    · intro e he
      rw [ite_some_none_eq he]
      simp

/-- C5: in the server profile a single leftmost-label wildcard matches
exactly one nonempty label and nothing else — `labelsMatch ("*" :: ps) ts`
holds exactly when the target is one extra label in front of the rest of the
pattern; in particular a leaf with SAN *.example.com verifies against target
api.example.com, while verification against target sub.api.example.com fails
with HostnameMismatch. -/
theorem c5_wildcard_single_label :
    (∀ (ps ts : List String),
        labelsMatch (("*" : String) :: ps) ts = true ↔ ∃ l, ¬ l = "" ∧ ts = l :: ps) ∧
    hostnameMatches "*.example.com" "api.example.com" = true ∧
    hostnameMatches "*.example.com" "sub.api.example.com" = false ∧
    verify demoEnv demoStore (serverPolicy "api.example.com") demoPool demoLeaf =
      Except.ok [demoLeaf, demoInt, demoRoot] ∧
    verify demoEnv demoStore (serverPolicy "sub.api.example.com") demoPool demoLeaf =
      Except.error VErr.HostnameMismatch := by
  refine ⟨?_, by decide, by decide, by decide, by decide⟩
  intro ps ts
  cases ts with
  | nil => simp [labelsMatch]
  | cons t tr =>
    have hred : labelsMatch (("*" : String) :: ps) (t :: tr) =
        (!(t == "") && ps == tr) := by simp [labelsMatch]
    rw [hred]
    constructor
    · intro h
      have h2 := h
      simp only [Bool.and_eq_true, Bool.not_eq_true', beq_eq_false_iff_ne, ne_eq,
        beq_iff_eq] at h2
      exact ⟨t, h2.1, by rw [h2.2]⟩
    · rintro ⟨l, hl, hts⟩
      injection hts with ht htr
      subst ht
      subst htr
      simp [hl]

/-- C6: an input whose pool holds both a too-long branch (explored first:
certA1, certA2, certA3 towards Root A exceed the maximum depth 2) and a
distinct shorter valid path (certB to Root B) still verifies, returning the
shorter chain; the depth-exceeding branch alone fails with
PathLengthExceeded; and in general a failing branch never aborts the
candidate loop — it only folds its reason into the running best failure. -/
theorem c6_shorter_path_found :
    verify demoEnv storeAB clientPolicy poolAB leafX =
      Except.ok [leafX, certB, rootB] ∧
    verify demoEnv storeAB clientPolicy [certA1, certA2, certA3] leafX =
      Except.error VErr.PathLengthExceeded ∧
    (∀ (env : SigEnv) (store : List Cert) (p : Policy) (leaf : Cert)
        (next : List Cert → Cert → Except RErr (List Cert))
        (path : List Cert) (current c : Cert) (cs : List Cert) (best e : RErr),
        branchRes env store p leaf next path current c = Except.error e →
        tryCands env store p leaf next path current (c :: cs) best =
          tryCands env store p leaf next path current cs (maxErr best e)) := by
  refine ⟨by decide, by decide, ?_⟩
  intro env store p leaf next path current c cs best e hb
  exact tryCands_cons_err hb

theorem maxErr_cases (a b : RErr) : maxErr a b = a ∨ maxErr a b = b := by
  unfold maxErr
  split_ifs
  · exact Or.inr rfl
  · exact Or.inl rfl

theorem tryCands_expired_stable {env : SigEnv} {store : List Cert} {p : Policy}
    {leaf : Cert} {next : List Cert → Cert → Except RErr (List Cert)}
    {path : List Cert} {current : Cert} :
    ∀ (cs : List Cert),
      (∀ c ∈ cs, ∃ e, branchRes env store p leaf next path current c = Except.error e ∧
          e.1 = 0 ∧ e.2.1 ≤ 3 ∧ (e.2.1 = 3 → e.2.2 = VErr.Expired)) →
      tryCands env store p leaf next path current cs (0, 3, VErr.Expired) =
        Except.error (0, 3, VErr.Expired) := by
  intro cs
  induction cs with
  | nil => intro hall; rw [tryCands]
  | cons c cs ih =>
    intro hall
    obtain ⟨e, he, h1, h2, h3⟩ := hall c (by simp)
    rw [tryCands_cons_err he]
    have hm : maxErr (0, 3, VErr.Expired) e = (0, 3, VErr.Expired) := by
      unfold maxErr
      split_ifs with h
      · exfalso; simp at h; omega
      · rfl
    rw [hm]
    exact ih (fun d hd => hall d (by simp [hd]))

theorem tryCands_expired_hit {env : SigEnv} {store : List Cert} {p : Policy}
    {leaf : Cert} {next : List Cert → Cert → Except RErr (List Cert)}
    {path : List Cert} {current : Cert} :
    ∀ (cs : List Cert) (best : RErr),
      (∀ c ∈ cs, ∃ e, branchRes env store p leaf next path current c = Except.error e ∧
          e.1 = 0 ∧ e.2.1 ≤ 3 ∧ (e.2.1 = 3 → e.2.2 = VErr.Expired)) →
      (∃ c ∈ cs, branchRes env store p leaf next path current c =
          Except.error (0, 3, VErr.Expired)) →
      best.1 = 0 → best.2.1 ≤ 3 → (best.2.1 = 3 → best.2.2 = VErr.Expired) →
      tryCands env store p leaf next path current cs best =
        Except.error (0, 3, VErr.Expired) := by
  intro cs
  induction cs with
  | nil =>
    intro best hall hhit hb1 hb2 hb3
    obtain ⟨c, hc, hce⟩ := hhit
    simp at hc
  | cons c cs ih =>
    intro best hall hhit hb1 hb2 hb3
    obtain ⟨e, he, h1, h2, h3⟩ := hall c (by simp)
    rw [tryCands_cons_err he]
    obtain ⟨d, hd, hde⟩ := hhit
    rcases List.mem_cons.mp hd with hdc | hdcs
    · subst hdc
      have hee : e = (0, 3, VErr.Expired) := by
        have h4 := he.symm.trans hde
        injection h4
      subst hee
      have hm : maxErr best (0, 3, VErr.Expired) = (0, 3, VErr.Expired) := by
        unfold maxErr
        split_ifs with h
        · rfl
        · obtain ⟨b1, b2, b3⟩ := best
          simp at h hb1 hb2 hb3
          subst hb1
          simp at h
          have hb23 : b2 = 3 := by omega
          subst hb23
          rw [hb3 rfl]
      rw [hm]
      exact tryCands_expired_stable cs (fun d2 hd2 => hall d2 (by simp [hd2]))
    · have hQm := maxErr_cases best e
      rcases hQm with hh | hh
      · exact ih (maxErr best e) (fun d2 hd2 => hall d2 (by simp [hd2]))
          ⟨d, hdcs, hde⟩ (by rw [hh]; exact hb1) (by rw [hh]; exact hb2)
          (by rw [hh]; exact hb3)
      · exact ih (maxErr best e) (fun d2 hd2 => hall d2 (by simp [hd2]))
          ⟨d, hdcs, hde⟩ (by rw [hh]; exact h1) (by rw [hh]; exact h2)
          (by rw [hh]; exact h3)

/-- C4: first, the validity-window check accepts a validation time equal to
either endpoint (`validityCheck` passes exactly when notBefore ≤ t ≤
notAfter, both bounds inclusive); second, whenever the same input verifies
successfully at some validation time t2 (every other field being good), but
the leaf's not-after lies strictly before the policy's actual validation
time, verification at the actual time fails with Expired. -/
theorem c4_expired_and_inclusive_window :
    (∀ (t : Nat) (c : Cert),
        validityCheck t c = none ↔ c.notBefore ≤ t ∧ t ≤ c.notAfter) ∧
    (∀ (env : SigEnv) (store : List Cert) (p : Policy) (pool : List Cert)
        (leaf : Cert) (t2 : Nat) (chain : List Cert),
        verify env store { p with validationTime := t2 } pool leaf = Except.ok chain →
        leaf.notAfter < p.validationTime →
        verify env store p pool leaf = Except.error VErr.Expired) := by
  constructor
  · intro t c
    unfold validityCheck
    constructor
    · intro h
      by_cases ha : t < c.notBefore
      · rw [if_pos ha] at h; cases h
      · rw [if_neg ha] at h
        by_cases hb : c.notAfter < t
        · rw [if_pos hb] at h; cases h
        · exact ⟨by omega, by omega⟩
    · intro hw
      rw [if_neg (by omega), if_neg (by omega)]
  · intro env store p pool leaf t2 chain h2 hexp
    unfold verify at h2
    cases hs2 : searchAux env store { p with validationTime := t2 } leaf pool
        (Policy.maxDepth { p with validationTime := t2 } + 1) [leaf] leaf with
    | error e => rw [hs2] at h2; exact Except.noConfusion h2
    | ok c2 =>
    rw [searchAux] at hs2
    rw [if_neg (by simp)] at hs2
    by_cases hstore : leaf ∈ store
    · rw [if_pos hstore] at hs2
      cases hacc2 : acceptChecks { p with validationTime := t2 } leaf [leaf] with
      | some ie => rw [hacc2] at hs2; exact Except.noConfusion hs2
      | none =>
        have hv2 : validityCheck t2 leaf = none := by
          cases hvv : validityCheck t2 leaf with
          | none => rfl
          | some e =>
            unfold acceptChecks at hacc2
            rw [show Policy.validationTime { p with validationTime := t2 } = t2 from rfl,
              hvv] at hacc2
            exact Option.noConfusion hacc2
        have hw : leaf.notBefore ≤ t2 ∧ t2 ≤ leaf.notAfter := by
          unfold validityCheck at hv2
          by_cases ha : t2 < leaf.notBefore
          · rw [if_pos ha] at hv2; cases hv2
          · rw [if_neg ha] at hv2
            by_cases hb : leaf.notAfter < t2
            · rw [if_pos hb] at hv2; cases hv2
            · exact ⟨by omega, by omega⟩
        have hsag : searchAux env store p leaf pool (p.maxDepth + 1) [leaf] leaf =
            Except.error (0, 3, VErr.Expired) := by
          rw [searchAux]
          rw [if_neg (by simp), if_pos hstore]
          have hvp : validityCheck p.validationTime leaf = some VErr.Expired := by
            unfold validityCheck
            rw [if_neg (by omega), if_pos hexp]
          have hap : acceptChecks p leaf [leaf] = some (3, VErr.Expired) := by
            unfold acceptChecks
            rw [hvp]
          rw [hap]
          rfl
        unfold verify
        rw [hsag]
    · rw [if_neg hstore] at hs2
      obtain ⟨cnd, hmem, hbr⟩ := tryCands_ok _ _ _ hs2
      obtain ⟨hnotin, hvl2, _⟩ := branchRes_ok hbr
      obtain ⟨hlink, hnb2, hna2⟩ := validateLink_none hvl2
      obtain ⟨k1, k2, k3⟩ := hlink
      have hnb2' : ¬ t2 < leaf.notBefore := hnb2
      have hna2' : ¬ leaf.notAfter < t2 := hna2
      have hall : ∀ c ∈ (pool ++ store).filter (fun c2 => c2.subject == leaf.issuer),
          ∃ e, branchRes env store p leaf
              (fun pa cu => searchAux env store p leaf pool p.maxDepth pa cu)
              [leaf] leaf c = Except.error e ∧
            e.1 = 0 ∧ e.2.1 ≤ 3 ∧ (e.2.1 = 3 → e.2.2 = VErr.Expired) := by
        intro c hc
        by_cases hcp : c ∈ [leaf]
        · refine ⟨(0, 0, VErr.CycleDetected), ?_, rfl, by decide, by decide⟩
          unfold branchRes
          rw [if_pos hcp]
          rfl
        · have hvsome : ∃ e, validateLink env store p leaf [leaf] leaf c = some e ∧
              errIdx e ≤ 3 ∧ (errIdx e = 3 → e = VErr.Expired) := by
            unfold validateLink
            rw [if_neg (show ¬ p.validationTime < leaf.notBefore by omega),
              if_pos hexp]
            by_cases q1 : c.subject = leaf.issuer
            · rw [if_pos q1]
              by_cases q2 : leaf.sigAlg ∈ env.allowed
              · rw [if_pos q2]
                by_cases q3 : env.verifySig c.pubKey leaf.tbsBytes leaf.sigBytes
                    leaf.sigAlg = true
                · rw [if_pos q3]
                  exact ⟨VErr.Expired, rfl, by decide, by decide⟩
                · rw [if_neg q3]
                  exact ⟨VErr.SignatureInvalid, rfl, by decide, by decide⟩
              · rw [if_neg q2]
                exact ⟨VErr.UnsupportedAlgorithm, rfl, by decide, by decide⟩
            · rw [if_neg q1]
              exact ⟨VErr.NoPathFound, rfl, by decide, by decide⟩
          obtain ⟨e, he, hi1, hi2⟩ := hvsome
          refine ⟨(0, errIdx e, e), ?_, rfl, hi1, fun hidx => hi2 hidx⟩
          unfold branchRes
          rw [if_neg hcp, he]
          rfl
      have hhit : branchRes env store p leaf
          (fun pa cu => searchAux env store p leaf pool p.maxDepth pa cu)
          [leaf] leaf cnd = Except.error (0, 3, VErr.Expired) := by
        unfold branchRes
        rw [if_neg hnotin]
        have hv : validateLink env store p leaf [leaf] leaf cnd = some VErr.Expired := by
          unfold validateLink
          rw [if_pos k1, if_pos k2, if_pos k3,
            if_neg (show ¬ p.validationTime < leaf.notBefore by omega), if_pos hexp]
        rw [hv]
        rfl
      have hsag : searchAux env store p leaf pool (p.maxDepth + 1) [leaf] leaf =
          Except.error (0, 3, VErr.Expired) := by
        rw [searchAux]
        rw [if_neg (by simp), if_neg hstore]
        exact tryCands_expired_hit _ _ hall ⟨cnd, hmem, hhit⟩ rfl (by simp) (by simp)
      unfold verify
      rw [hsag]

/-- Witness for C4: the section-8 scenario verifies at time 100 but its leaf
has expired by time 5000, so verification at time 5000 returns Expired. -/
theorem c4_witness :
    verify demoEnv demoStore { expiredPolicy with validationTime := 100 } demoPool
        demoLeaf = Except.ok [demoLeaf, demoInt, demoRoot] ∧
    demoLeaf.notAfter < expiredPolicy.validationTime ∧
    verify demoEnv demoStore expiredPolicy demoPool demoLeaf =
      Except.error VErr.Expired :=
  ⟨by decide, by decide,
   c4_expired_and_inclusive_window.2 demoEnv demoStore expiredPolicy demoPool
     demoLeaf 100 [demoLeaf, demoInt, demoRoot] (by decide) (by decide)⟩

/-- Witness for C6: a cycle-guarded candidate's branch fails, and the
candidate loop continues with the folded best failure instead of aborting. -/
theorem c6_witness :
    branchRes demoEnv storeAB clientPolicy leafX
        (fun _ _ => Except.error ((0 : Nat), (0 : Nat), VErr.NoPathFound)) [leafX] leafX leafX =
      Except.error ((0 : Nat), (0 : Nat), VErr.CycleDetected) ∧
    tryCands demoEnv storeAB clientPolicy leafX
        (fun _ _ => Except.error ((0 : Nat), (0 : Nat), VErr.NoPathFound)) [leafX] leafX
        [leafX] ((0 : Nat), (0 : Nat), VErr.NoPathFound) =
      tryCands demoEnv storeAB clientPolicy leafX
        (fun _ _ => Except.error ((0 : Nat), (0 : Nat), VErr.NoPathFound)) [leafX] leafX
        [] (maxErr ((0 : Nat), (0 : Nat), VErr.NoPathFound)
             ((0 : Nat), (0 : Nat), VErr.CycleDetected)) :=
  ⟨by decide,
   c6_shorter_path_found.2.2 _ _ _ _ _ _ _ _ _ _ _ (by decide)⟩

end X509

namespace RustLib

set_option maxRecDepth 8192 in
/-- C9: `_legacy_provider_error` returns Ok exactly when its success argument
is true; on false it returns a PyRuntimeError whose message names the
CRYPTOGRAPHY_OPENSSL_NO_LEGACY environment variable as the way to run
without legacy algorithms. -/
theorem c9_legacy_provider_error :
    (∀ s, legacyProviderError s = Except.ok () ↔ s = true) ∧
    (∃ m, legacyProviderError false = Except.error m ∧ m.kind = "RuntimeError" ∧
      ∃ pre post, m.message = pre ++ ("CRYPTOGRAPHY_OPENSSL_NO_LEGACY" ++ post)) := by
  constructor
  · intro s
    cases s <;> simp [legacyProviderError]
  · refine ⟨{ kind := "RuntimeError", message := legacyProviderMessage }, rfl, rfl,
      "OpenSSL 3.0's legacy provider failed to load. This is a fatal error by default, but cryptography supports running without legacy algorithms by setting the environment variable ",
      ". If you did not expect this error, you have likely made a mistake with your OpenSSL configuration.", ?_⟩
    decide

/-- C10: `_initialize_providers` attempts the legacy-provider load exactly
when CRYPTOGRAPHY_OPENSSL_NO_LEGACY is unset, empty or "0" (the result does
not depend on the legacy load outcome otherwise); a failing attempt turns
into the legacy PyRuntimeError rather than an Ok without the provider; a
successful attempt stores the legacy provider; and when the attempt is
skipped every Ok result carries legacy = none and fips = none. -/
theorem c10_initialize_providers :
    (∀ envVar, loadLegacyFlag envVar = true ↔
        (envVar = none ∨ envVar = some "" ∨ envVar = some "0")) ∧
    (∀ envVar l1 l2 d, loadLegacyFlag envVar = false →
        initializeProviders envVar l1 d = initializeProviders envVar l2 d) ∧
    (∀ envVar e d, loadLegacyFlag envVar = true →
        initializeProviders envVar (Except.error e) d =
          Except.error { kind := "RuntimeError", message := legacyProviderMessage }) ∧
    (∀ envVar lp dp, loadLegacyFlag envVar = true →
        initializeProviders envVar (Except.ok lp) (Except.ok dp) =
          Except.ok { legacy := some lp, defaultProvider := dp, fips := none }) ∧
    (∀ envVar lp d r, loadLegacyFlag envVar = false →
        initializeProviders envVar lp d = Except.ok r →
        r.legacy = none ∧ r.fips = none) := by
  refine ⟨?_, ?_, ?_, ?_, ?_⟩
  · intro envVar
    cases envVar with
    | none => simp [loadLegacyFlag]
    | some v => simp [loadLegacyFlag]
  · intro envVar l1 l2 d h
    simp [initializeProviders, h]
  · intro envVar e d h
    simp [initializeProviders, h, legacyProviderError]
  · intro envVar lp dp h
    simp [initializeProviders, h, legacyProviderError]
  · intro envVar lp d r h hok
    obtain ⟨rl, rd, rf⟩ := r
    cases d with
    | error e => simp [initializeProviders, h] at hok
    | ok dp =>
      simp [initializeProviders, h] at hok
      exact ⟨hok.1.symm, hok.2.2.symm⟩

/-- Witness for C10: with the environment variable set to "0" the legacy
load is attempted, and a failing load surfaces the PyRuntimeError. -/
theorem c10_witness :
    loadLegacyFlag (some "0") = true ∧
    initializeProviders (some "0") (Except.error "no such provider")
        (Except.ok "default") =
      Except.error { kind := "RuntimeError", message := legacyProviderMessage } :=
  ⟨by decide,
   c10_initialize_providers.2.2.1 (some "0") "no such provider"
     (Except.ok "default") (by decide)⟩

end RustLib
